import Mathlib

/-!
Shallow embedding of `src/components/hab/src/command/pkg/download.rs`
(the `hab pkg download` pipeline) and proofs about it.

The depot client, the key store and the artifact reader are external
collaborators; they are modelled as oracle functions bundled in `DepotEnv`.
The local filesystem and the number of network calls made are threaded
through every operation as an explicit `World` state.  Rust `Result` plus
the possibility of a panic is modelled by the `Outcome` type.
-/

set_option autoImplicit false

namespace Habitat

/-- Package identifier: origin, name, optional version, optional release
(mirrors `PackageIdent` from the core package library). -/
structure PackageIdent where
  origin : String
  name : String
  version : Option String
  release : Option String
deriving DecidableEq, Repr

/-- A target is a platform/architecture pair, rendered as a string
(mirrors `PackageTarget`). -/
abbrev PackageTarget := String

/-- Result of resolving one identifier at the depot: the fully qualified
identifier plus its transitive dependencies (mirrors `api_client::Package`:
the fields `ident` and `tdeps` used by `download.rs`). -/
structure Package where
  ident : PackageIdent
  tdeps : List PackageIdent
deriving DecidableEq, Repr

/-- An identifier is fully qualified when version and release are present. -/
def PackageIdent.fullyQualified (i : PackageIdent) : Bool :=
  i.version.isSome && i.release.isSome

/-- Render an identifier the way `Display for PackageIdent` does:
`origin/name[/version[/release]]`. -/
def PackageIdent.str (i : PackageIdent) : String :=
  i.origin ++ "/" ++ i.name ++
    (match i.version with
     | some v => "/" ++ v
     | none => "") ++
    (match i.release with
     | some r => "/" ++ r
     | none => "")

/-- The error kinds `download.rs` can produce (constructors named after the
Rust error variants that `download.rs` builds or forwards). -/
inductive DlError where
  | MissingCLIInputError (msg : String)
  | PackageNotFound (msg : String)
  | APIClient (msg : String)
  | DownloadFailed (msg : String)
  | PermissionFailed (msg : String)
  | ArtifactError (msg : String)
  | VerificationFailed (msg : String)
  | IoError (msg : String)
deriving DecidableEq, Repr

/-- A Rust computation result: `Ok`, `Err`, or a panic unwinding. -/
inductive Outcome (α : Type) where
  | ok (value : α)
  | err (e : DlError)
  | panicked (msg : String)
deriving DecidableEq, Repr

/-- A filesystem node: a plain file, or a directory with a read-only bit. -/
inductive NodeKind where
  | file
  | dir (readonly : Bool)
deriving DecidableEq, Repr

/-- Look a path up in an association list of filesystem nodes
(first entry wins, so insertion at the head overwrites). -/
def lookupNode : List (String × NodeKind) → String → Option NodeKind
  | [], _ => none
  | (q, k) :: rest, p => if p = q then some k else lookupNode rest p

/-- The local filesystem, as a path-indexed association list. -/
structure FS where
  nodes : List (String × NodeKind)
deriving DecidableEq, Repr

def FS.lookup (fs : FS) (p : String) : Option NodeKind := lookupNode fs.nodes p

/-- Does `p` name an existing plain file? (Rust `Path::is_file`.) -/
def FS.isFile (fs : FS) (p : String) : Bool :=
  match fs.lookup p with
  | some NodeKind.file => true
  | _ => false

/-- Does `p` name an existing directory? -/
def FS.isDir (fs : FS) (p : String) : Bool :=
  match fs.lookup p with
  | some (NodeKind.dir _) => true
  | _ => false

/-- Write (or overwrite) a plain file at `p`. -/
def FS.writeFile (fs : FS) (p : String) : FS :=
  ⟨(p, NodeKind.file) :: fs.nodes⟩

/-- Create a writable directory node at `p`. -/
def FS.mkdir (fs : FS) (p : String) : FS :=
  ⟨(p, NodeKind.dir false) :: fs.nodes⟩

/-- `DirBuilder::new().recursive(true).create(p)`: succeeds (without change)
if `p` is already a directory, fails if `p` exists as a non-directory, and
otherwise creates the directory. -/
def create_dir_all (fs : FS) (p : String) : Option FS :=
  match fs.lookup p with
  | some (NodeKind.dir _) => some fs
  | some NodeKind.file => none
  | none => some (fs.mkdir p)

/-- The mutable world: the filesystem plus counters of how many network
calls of each kind have been made (`show_package_metadata`,
`fetch_package`, `fetch_origin_key`). -/
structure World where
  fs : FS
  resolveCalls : Nat
  fetchCalls : Nat
  keyFetchCalls : Nat
deriving DecidableEq, Repr

/-- Depot response to `show_package_metadata` (resolution). -/
inductive ResolveResponse where
  | ok (p : Package)
  | notFound
  | apiError (msg : String)
deriving DecidableEq, Repr

/-- Depot response to `fetch_package`. -/
inductive FetchResponse where
  | ok
  | notImplemented
  | apiError (msg : String)
deriving DecidableEq, Repr

/-- The external collaborators, as oracles: the depot client (resolution,
artifact fetch indexed by the global fetch-call number, key fetch), the
artifact reader (signer of the artifact stored at a path), the signature
verifier, and whether `Client::new` succeeds. -/
structure DepotEnv where
  resolve : PackageIdent → ResolveResponse
  fetchPackage : PackageIdent → PackageTarget → Nat → FetchResponse
  fetchKey : String → String → Nat → Bool
  signerOf : String → Option String
  verifyOk : String → Bool
  clientNewOk : Bool

/-- The run configuration held by `DownloadTask` (the fields the modelled
behaviour depends on). -/
structure Cfg where
  idents : List PackageIdent
  target : PackageTarget
  channel : String
  downloadPath : String
  verify : Bool

/-- `path_for_keys`: `<download_path>/keys`. -/
def path_for_keys (cfg : Cfg) : String := cfg.downloadPath ++ "/keys"

/-- `path_for_artifact`: `<download_path>/artifacts`. -/
def path_for_artifact (cfg : Cfg) : String := cfg.downloadPath ++ "/artifacts"

/-- Modelled from the spec: `archive_name_with_target` lives in the core
package library (not under `src/`).  It forms the deterministic archive
file name `origin-name-version-release-target.hart` and fails unless the
identifier is fully qualified (spec section 3: a `CachedArtifactPath` is a
pure function of root, identifier and target; "fully qualified" means
version and release are both present). -/
def archive_name_with_target (i : PackageIdent) (t : PackageTarget) : Option String :=
  match i.version, i.release with
  | some v, some r =>
      some (i.origin ++ "-" ++ i.name ++ "-" ++ v ++ "-" ++ r ++ "-" ++ t ++ ".hart")
  | _, _ => none

/-- `downloaded_artifact_path`, minus the `.unwrap()`: the code unwraps the
archive name, so a `none` here means the Rust function panics. -/
def downloaded_artifact_path (cfg : Cfg) (i : PackageIdent) (t : PackageTarget) :
    Option String :=
  (archive_name_with_target i t).map (fun n => path_for_artifact cfg ++ "/" ++ n)

/-- The message of the panic raised by `.unwrap()` on `None`. -/
def unwrapPanicMsg : String := "called Option unwrap on a None value"

/-- Split a character list at its last dash, returning the part before and
the part after; `none` when no dash occurs. -/
def splitLastDash : List Char → Option (List Char × List Char)
  | [] => none
  | c :: rest =>
    match splitLastDash rest with
    | some (l, r) => some (c :: l, r)
    | none => if c = '-' then some ([], rest) else none

/-- Modelled from the spec: `parse_name_with_rev` lives in the core crypto
library (not under `src/`).  A signer identity string `name-revision`
splits at its last dash into a non-empty name and a non-empty revision; a
string without both parts cannot be parsed (spec section 6: key files are
named `<signer-name>-<revision>.pub`). -/
def parse_name_with_rev (s : String) : Option (String × String) :=
  match splitLastDash s.data with
  | none => none
  | some (l, r) =>
    if l.isEmpty || r.isEmpty then none
    else some (String.mk l, String.mk r)

/-- Modelled from the spec: `artifact_signer` lives in the core crypto
library (not under `src/`).  It reads the header of the artifact file at
`path` to learn the signer identity (spec section 6:
`read_signer(artifact_path) -> (signer_name, revision) | ParseError`);
reading fails when no file exists at `path` or its header does not parse. -/
def artifact_signer (env : DepotEnv) (fs : FS) (path : String) : Outcome String :=
  if fs.isFile path then
    match env.signerOf path with
    | some s => Outcome.ok s
    | none => Outcome.err (DlError.ArtifactError ("Can't parse artifact at " ++ path))
  else
    Outcome.err (DlError.ArtifactError ("No such file " ++ path))

/-- `RETRIES`: the compiled-in retry constant. -/
def RETRIES : Nat := 5

/-- `RETRY_WAIT` in milliseconds. -/
def RETRY_WAIT : Nat := 3000

/-- `delay::Fixed::from(RETRY_WAIT).take(RETRIES)`: the list of delays the
retry combinator may sleep between attempts. -/
def retryDelays : List Nat := List.replicate RETRIES RETRY_WAIT

/-- Result of the `retry::retry` combinator: success, failure carrying the
number of attempts made, the total delay slept and the last error, or a
panic unwinding out of the operation. -/
inductive RetryResult where
  | ok
  | failed (tries : Nat) (totalDelay : Nat) (lastError : DlError)
  | panicked (msg : String)
deriving DecidableEq, Repr

/-- The loop of `retry::retry`: run the operation; on success stop; on
failure sleep the next delay and try again, or give up when the delays are
exhausted.  `currentTry` counts the attempts made so far (starting at 1),
so an iterator of `n` delays yields up to `n + 1` attempts. -/
def retryGo (f : World → Outcome Unit × World) :
    List Nat → Nat → Nat → World → RetryResult × World
  | delays, currentTry, totalDelay, st =>
    match f st with
    | (Outcome.ok _, st1) => (RetryResult.ok, st1)
    | (Outcome.panicked m, st1) => (RetryResult.panicked m, st1)
    | (Outcome.err e, st1) =>
      match delays with
      | [] => (RetryResult.failed currentTry totalDelay e, st1)
      | d :: rest => retryGo f rest (currentTry + 1) (totalDelay + d) st1

/-- `retry::retry(delays, f)`. -/
def retryRun (delays : List Nat) (f : World → Outcome Unit × World) (st : World) :
    RetryResult × World :=
  retryGo f delays 1 0 st

/-- `fetch_artifact`: one download attempt.  A depot `NOT_IMPLEMENTED`
response (target unsupported) prints "skipping." and returns `Ok` without
writing any file; a successful fetch writes the archive into the artifacts
directory; any other depot error is returned as-is. -/
def fetch_artifact (env : DepotEnv) (cfg : Cfg) (st : World)
    (ident : PackageIdent) (target : PackageTarget) : Outcome Unit × World :=
  let resp := env.fetchPackage ident target st.fetchCalls
  let st1 : World := { st with fetchCalls := st.fetchCalls + 1 }
  match resp with
  | FetchResponse.ok =>
    match archive_name_with_target ident target with
    | some n =>
        (Outcome.ok (),
         { st1 with fs := st1.fs.writeFile (path_for_artifact cfg ++ "/" ++ n) })
    | none => (Outcome.err (DlError.APIClient "ident is not fully qualified"), st1)
  | FetchResponse.notImplemented => (Outcome.ok (), st1)
  | FetchResponse.apiError m => (Outcome.err (DlError.APIClient m), st1)

/-- `fetch_origin_key`: parse the signer into name and revision, then ask
the depot for that key; a successful fetch stores the key file
`<name>-<revision>.pub` in the keys directory. -/
def fetch_origin_key (env : DepotEnv) (cfg : Cfg) (st : World) (signer : String) :
    Outcome Unit × World :=
  match parse_name_with_rev signer with
  | none =>
      (Outcome.err (DlError.ArtifactError ("Can't parse name with rev " ++ signer)), st)
  | some (n, r) =>
    let ok := env.fetchKey n r st.keyFetchCalls
    let st1 : World := { st with keyFetchCalls := st.keyFetchCalls + 1 }
    if ok then
      (Outcome.ok (),
       { st1 with fs := st1.fs.writeFile (path_for_keys cfg ++ "/" ++ n ++ "-" ++ r ++ ".pub") })
    else
      (Outcome.err (DlError.APIClient ("key fetch failed for " ++ signer)), st1)

/-- The key file the local key store would hold for `signer`
(`SigKeyPair::get_public_key_path`). -/
def keyFilePath (cfg : Cfg) (signer : String) : String :=
  path_for_keys cfg ++ "/" ++ signer ++ ".pub"

/-- The final step of `fetch_keys_and_verify_artifact`: only if the
verify flag is set, verify the artifact's signature against the local key
store, a failure being an error. -/
def verifyStep (env : DepotEnv) (cfg : Cfg) (st : World) (path : String) :
    Outcome Unit × World :=
  if cfg.verify then
    if env.verifyOk path then (Outcome.ok (), st)
    else
      (Outcome.err (DlError.VerificationFailed
         ("Habitat artifact cannot be validated at " ++ path)), st)
  else (Outcome.ok (), st)

/-- `fetch_keys_and_verify_artifact`: read the signer from the artifact;
fetch the signer's public key whenever it is absent from the local key
store (unconditionally, independent of the verify flag); then run the
verification step. -/
def fetch_keys_and_verify_artifact (env : DepotEnv) (cfg : Cfg) (st : World)
    (path : String) : Outcome Unit × World :=
  match artifact_signer env st.fs path with
  | Outcome.err e => (Outcome.err e, st)
  | Outcome.panicked m => (Outcome.panicked m, st)
  | Outcome.ok signer =>
    if st.fs.isFile (keyFilePath cfg signer) then verifyStep env cfg st path
    else
      match fetch_origin_key env cfg st signer with
      | (Outcome.ok _, st1) => verifyStep env cfg st1 path
      | other => other

/-- Render an error the way its `Display` instance would, for embedding in
a wrapping message. -/
def DlError.render : DlError → String
  | DlError.MissingCLIInputError m => m
  | DlError.PackageNotFound m => m
  | DlError.APIClient m => m
  | DlError.DownloadFailed m => m
  | DlError.PermissionFailed m => m
  | DlError.ArtifactError m => m
  | DlError.VerificationFailed m => m
  | DlError.IoError m => m

/-- The `DownloadFailed` message built after the retries are exhausted:
note it reports the `RETRIES` constant as the number of tries. -/
def mkDownloadFailedMsg (ident : PackageIdent) (target : PackageTarget)
    (last : DlError) : String :=
  "We tried " ++ toString RETRIES ++ " times but could not download " ++ ident.str ++
    " for " ++ target ++ ". Last error was: " ++ last.render

/-- A handle on a downloaded archive (`PackageArchive`): its path. -/
structure PackageArchive where
  path : String
deriving DecidableEq, Repr

/-- `get_downloaded_archive`: compute the cache path (panicking like the
Rust `.unwrap()` when the archive name cannot be formed); skip the network
when a file is already cached there, otherwise fetch under the retry
policy, escalating exhaustion to `DownloadFailed`; finally fetch keys and
optionally verify. -/
def get_downloaded_archive (env : DepotEnv) (cfg : Cfg) (st : World)
    (ident : PackageIdent) (target : PackageTarget) : Outcome PackageArchive × World :=
  match downloaded_artifact_path cfg ident target with
  | none => (Outcome.panicked unwrapPanicMsg, st)
  | some path =>
    let step : RetryResult × World :=
      if st.fs.isFile path then (RetryResult.ok, st)
      else retryRun retryDelays (fun w => fetch_artifact env cfg w ident target) st
    match step with
    | (RetryResult.panicked m, st1) => (Outcome.panicked m, st1)
    | (RetryResult.failed _ _ last, st1) =>
        (Outcome.err (DlError.DownloadFailed (mkDownloadFailedMsg ident target last)), st1)
    | (RetryResult.ok, st1) =>
      match fetch_keys_and_verify_artifact env cfg st1 path with
      | (Outcome.ok _, st2) => (Outcome.ok ⟨path⟩, st2)
      | (Outcome.err e, st2) => (Outcome.err e, st2)
      | (Outcome.panicked m, st2) => (Outcome.panicked m, st2)

/-- `download_artifacts`: loop over the expanded set, aborting on the
first per-item error. -/
def download_artifacts (env : DepotEnv) (cfg : Cfg) :
    World → List (PackageIdent × PackageTarget) → Outcome (List PackageArchive) × World
  | st, [] => (Outcome.ok [], st)
  | st, (i, t) :: rest =>
    match get_downloaded_archive env cfg st i t with
    | (Outcome.ok a, st1) =>
      match download_artifacts env cfg st1 rest with
      | (Outcome.ok as, st2) => (Outcome.ok (a :: as), st2)
      | (Outcome.err e, st2) => (Outcome.err e, st2)
      | (Outcome.panicked m, st2) => (Outcome.panicked m, st2)
    | (Outcome.err e, st1) => (Outcome.err e, st1)
    | (Outcome.panicked m, st1) => (Outcome.panicked m, st1)

/-- `determine_latest_from_ident`: one resolution call; a depot `NOT_FOUND`
becomes a fatal `PackageNotFound`, any other depot error is forwarded. -/
def determine_latest_from_ident (env : DepotEnv) (cfg : Cfg) (st : World)
    (ident : PackageIdent) : Outcome Package × World :=
  let resp := env.resolve ident
  let st1 : World := { st with resolveCalls := st.resolveCalls + 1 }
  match resp with
  | ResolveResponse.ok p => (Outcome.ok p, st1)
  | ResolveResponse.notFound =>
      (Outcome.err (DlError.PackageNotFound
         (ident.str ++ " for " ++ cfg.target ++ " in channel " ++ cfg.channel)), st1)
  | ResolveResponse.apiError m => (Outcome.err (DlError.APIClient m), st1)

/-- The first loop of `expand_sources`: resolve every input identifier in
order, aborting on the first failure. -/
def resolveAll (env : DepotEnv) (cfg : Cfg) :
    World → List PackageIdent → Outcome (List Package) × World
  | st, [] => (Outcome.ok [], st)
  | st, i :: rest =>
    match determine_latest_from_ident env cfg st i with
    | (Outcome.ok p, st1) =>
      match resolveAll env cfg st1 rest with
      | (Outcome.ok ps, st2) => (Outcome.ok (p :: ps), st2)
      | (Outcome.err e, st2) => (Outcome.err e, st2)
      | (Outcome.panicked m, st2) => (Outcome.panicked m, st2)
    | (Outcome.err e, st1) => (Outcome.err e, st1)
    | (Outcome.panicked m, st1) => (Outcome.panicked m, st1)

/-- `HashSet::insert` on a duplicate-free list: append when absent. -/
def insertPair (l : List (PackageIdent × PackageTarget))
    (p : PackageIdent × PackageTarget) : List (PackageIdent × PackageTarget) :=
  if p ∈ l then l else l ++ [p]

/-- The second loop of `expand_sources`, for one resolved package: insert
every tdep paired with the target, then the resolved identifier itself. -/
def collectPackage (acc : List (PackageIdent × PackageTarget)) (target : PackageTarget)
    (p : Package) : List (PackageIdent × PackageTarget) :=
  insertPair (p.tdeps.foldl (fun a d => insertPair a (d, target)) acc) (p.ident, target)

/-- The second loop of `expand_sources` over all resolved packages,
starting from the empty set. -/
def collectAll (target : PackageTarget) (ps : List Package) :
    List (PackageIdent × PackageTarget) :=
  ps.foldl (fun a p => collectPackage a target p) []

/-- `expand_sources`: resolve every input, then union the resolved
identifiers and all their tdeps, each paired with the run's target. -/
def expand_sources (env : DepotEnv) (cfg : Cfg) (st : World) :
    Outcome (List (PackageIdent × PackageTarget)) × World :=
  match resolveAll env cfg st cfg.idents with
  | (Outcome.ok ps, st1) => (Outcome.ok (collectAll cfg.target ps), st1)
  | (Outcome.err e, st1) => (Outcome.err e, st1)
  | (Outcome.panicked m, st1) => (Outcome.panicked m, st1)

/-- The three paths `verify_and_prepare_download_directory` works on, in
the order the code lists them. -/
def downloadPaths (cfg : Cfg) : List String :=
  [cfg.downloadPath, path_for_keys cfg, path_for_artifact cfg]

/-- The creation loop: `create_dir_all` each path in order, reporting the
first path whose creation fails and keeping whatever was created so far. -/
def createDirs : FS → List String → FS × Option String
  | fs, [] => (fs, none)
  | fs, p :: rest =>
    match create_dir_all fs p with
    | some fs1 => createDirs fs1 rest
    | none => (fs, some p)

/-- The permission-check loop: re-stat each path in order; a missing path
is a raw metadata error, a non-directory or a read-only directory is a
`PermissionFailed`. -/
def checkDirs (fs : FS) : List String → Option DlError
  | [] => none
  | p :: rest =>
    match fs.lookup p with
    | none => some (DlError.IoError ("No such file or directory " ++ p))
    | some NodeKind.file =>
        some (DlError.PermissionFailed (p ++ " isn't a directory, needed for download"))
    | some (NodeKind.dir ro) =>
      if ro then
        some (DlError.PermissionFailed (p ++ " isn't writeable, needed for download"))
      else checkDirs fs rest

/-- `verify_and_prepare_download_directory`: create the download root and
its `keys` and `artifacts` subdirectories if absent (a creation failure is
a `PermissionFailed`), then re-stat all three and check each is a writable
directory. -/
def verify_and_prepare_download_directory (cfg : Cfg) (st : World) :
    Outcome Unit × World :=
  match createDirs st.fs (downloadPaths cfg) with
  | (fs1, some p) =>
      (Outcome.err (DlError.PermissionFailed
         ("Can't create directory " ++ p ++ " needed for download")), { st with fs := fs1 })
  | (fs1, none) =>
    let st1 : World := { st with fs := fs1 }
    match checkDirs fs1 (downloadPaths cfg) with
    | some e => (Outcome.err e, st1)
    | none => (Outcome.ok (), st1)

/-- `DownloadTask::execute`: directory preparation, then expansion, then
the download loop; returns the number of archives downloaded or cached. -/
def execute (env : DepotEnv) (cfg : Cfg) (st : World) : Outcome Nat × World :=
  match verify_and_prepare_download_directory cfg st with
  | (Outcome.ok _, st1) =>
    match expand_sources env cfg st1 with
    | (Outcome.ok pairs, st2) =>
      match download_artifacts env cfg st2 pairs with
      | (Outcome.ok arts, st3) => (Outcome.ok arts.length, st3)
      | (Outcome.err e, st3) => (Outcome.err e, st3)
      | (Outcome.panicked m, st3) => (Outcome.panicked m, st3)
    | (Outcome.err e, st2) => (Outcome.err e, st2)
    | (Outcome.panicked m, st2) => (Outcome.panicked m, st2)
  | (Outcome.err e, st1) => (Outcome.err e, st1)
  | (Outcome.panicked m, st1) => (Outcome.panicked m, st1)

/-- `start`: reject an empty identifier list before building the client
and running the task; on success the count returned by `execute` is only
logged at debug level and the function returns unit. -/
def start (env : DepotEnv) (cfg : Cfg) (st : World) : Outcome Unit × World :=
  if cfg.idents.isEmpty then
    (Outcome.err (DlError.MissingCLIInputError "No package identifiers found"), st)
  else if env.clientNewOk then
    match execute env cfg st with
    | (Outcome.ok _count, st1) => (Outcome.ok (), st1)
    | (Outcome.err e, st1) => (Outcome.err e, st1)
    | (Outcome.panicked m, st1) => (Outcome.panicked m, st1)
  else (Outcome.err (DlError.APIClient "client construction failed"), st)

/-- The spec's ExpansionSet (section 3, written from the spec's words, to
be compared with `expand_sources`): the union, over every input
identifier, of its resolved identifier and all of its tdeps, each paired
with the run's single target.  `f` gives the depot's resolution of each
input. -/
def reachableSet (f : PackageIdent → Package) (idents : List PackageIdent)
    (target : PackageTarget) : Finset (PackageIdent × PackageTarget) :=
  idents.foldr
    (fun i acc =>
      (insert ((f i).ident, target) (((f i).tdeps.map (fun d => (d, target))).toFinset)) ∪ acc)
    ∅

/-! Concrete fixtures used by witnesses and counterexamples. -/

/-- A fully qualified identifier, `core/redis/3.0.1/20190101`. -/
def identA : PackageIdent := ⟨"core", "redis", some "3.0.1", some "20190101"⟩

/-- A second fully qualified identifier, `core/glibc/2.27/20190101`. -/
def identB : PackageIdent := ⟨"core", "glibc", some "2.27", some "20190101"⟩

/-- A partial identifier, `core/redis`. -/
def identPart : PackageIdent := ⟨"core", "redis", none, none⟩

/-- A concrete target. -/
def tgtA : PackageTarget := "x86_64-linux"

/-- An empty filesystem and zero network calls. -/
def emptyWorld : World := ⟨⟨[]⟩, 0, 0, 0⟩

/-- A concrete run configuration over `identA` with verification off. -/
def cfgA : Cfg := ⟨[identA], tgtA, "stable", "/dl", false⟩

/-- A depot whose artifact fetch always fails. -/
def envAllFail : DepotEnv :=
  ⟨fun i => ResolveResponse.ok ⟨i, []⟩, fun _ _ _ => FetchResponse.apiError "boom",
   fun _ _ _ => true, fun _ => some "core-20180119235556", fun _ => true, true⟩

/-- A depot for which everything succeeds. -/
def envOk : DepotEnv :=
  ⟨fun i => ResolveResponse.ok ⟨i, []⟩, fun _ _ _ => FetchResponse.ok,
   fun _ _ _ => true, fun _ => some "core-20180119235556", fun _ => true, true⟩

/-! Retry lemmas. -/

theorem fetch_artifact_apiError (env : DepotEnv) (cfg : Cfg) (ident : PackageIdent)
    (target : PackageTarget) (msg : Nat → String)
    (hf : ∀ n, env.fetchPackage ident target n = FetchResponse.apiError (msg n))
    (w : World) :
    fetch_artifact env cfg w ident target
      = (Outcome.err (DlError.APIClient (msg w.fetchCalls)),
         { w with fetchCalls := w.fetchCalls + 1 }) := by
  simp [fetch_artifact, hf]

theorem retryGo_allFail (f : World → Outcome Unit × World) (e : Nat → DlError)
    (hf : ∀ w, f w = (Outcome.err (e w.fetchCalls),
                      { w with fetchCalls := w.fetchCalls + 1 })) :
    ∀ (delays : List Nat) (t d : Nat) (st : World),
      retryGo f delays t d st
        = (RetryResult.failed (t + delays.length) (d + delays.sum)
             (e (st.fetchCalls + delays.length)),
           { st with fetchCalls := st.fetchCalls + delays.length + 1 })
  | [], t, d, st => by
    simp [retryGo, hf st]
  | d0 :: rest, t, d, st => by
    have ih := retryGo_allFail f e hf rest (t + 1) (d + d0)
      { st with fetchCalls := st.fetchCalls + 1 }
    have h1 : t + 1 + rest.length = t + (rest.length + 1) := by omega
    have h2 : d + d0 + rest.sum = d + (d0 + rest.sum) := by omega
    have h3 : st.fetchCalls + 1 + rest.length = st.fetchCalls + (rest.length + 1) := by
      omega
    simp only [retryGo, hf st, ih, List.length_cons, List.sum_cons]
    rw [h1, h2, h3]

/-- C1 (amended): when the artifact is not cached and the fetch fails on
every attempt, the code makes exactly `RETRIES + 1 = 6` attempts (one
initial attempt plus one retry per delay the iterator yields), sleeping a
fixed `RETRY_WAIT = 3000` ms between attempts, and escalates to a fatal
`DownloadFailed` error carrying the identifier, the target, the `RETRIES`
constant (5) as the reported try count, and the last underlying error. -/
theorem C1_retry_bound (env : DepotEnv) (cfg : Cfg) (st : World)
    (ident : PackageIdent) (target : PackageTarget) (path : String) (msg : Nat → String)
    (hp : downloaded_artifact_path cfg ident target = some path)
    (hc : FS.isFile st.fs path = false)
    (hf : ∀ n, env.fetchPackage ident target n = FetchResponse.apiError (msg n)) :
    (retryRun retryDelays (fun w => fetch_artifact env cfg w ident target) st).1
        = RetryResult.failed (RETRIES + 1) (RETRIES * RETRY_WAIT)
            (DlError.APIClient (msg (st.fetchCalls + RETRIES)))
    ∧ (get_downloaded_archive env cfg st ident target).1
        = Outcome.err (DlError.DownloadFailed (mkDownloadFailedMsg ident target
            (DlError.APIClient (msg (st.fetchCalls + RETRIES)))))
    ∧ (get_downloaded_archive env cfg st ident target).2
        = { st with fetchCalls := st.fetchCalls + RETRIES + 1 }
    ∧ retryDelays = List.replicate RETRIES RETRY_WAIT
    ∧ RETRIES = 5 ∧ RETRY_WAIT = 3000 := by
  have hgo := retryGo_allFail (fun w => fetch_artifact env cfg w ident target)
    (fun n => DlError.APIClient (msg n))
    (fun w => fetch_artifact_apiError env cfg ident target msg hf w)
    retryDelays 1 0 st
  have hlen : retryDelays.length = RETRIES := by simp [retryDelays]
  have hsum : retryDelays.sum = RETRIES * RETRY_WAIT := by
    simp [retryDelays, List.sum_replicate, Nat.smul_one_eq_cast]
  refine ⟨?_, ?_, ?_, rfl, rfl, rfl⟩
  · rw [retryRun, hgo, hlen, hsum]
    simp [Nat.add_comm]
  · rw [get_downloaded_archive, hp]
    simp only [hc, Bool.false_eq_true, if_false, retryRun, hgo, hlen]
  · rw [get_downloaded_archive, hp]
    simp only [hc, Bool.false_eq_true, if_false, retryRun, hgo, hlen]

/-- C1 counterexample: a pair whose fetch fails on every attempt is
attempted `RETRIES + 1 = 6` times, not the configured `RETRIES = 5` the
claim states. -/
theorem C1_counterexample :
    (get_downloaded_archive envAllFail cfgA emptyWorld identA tgtA).2.fetchCalls
        = RETRIES + 1
    ∧ RETRIES + 1 ≠ RETRIES := by
  decide

/-- C1 witness: the amended retry-bound theorem applied at a concrete
always-failing depot. -/
theorem C1_witness :
    (get_downloaded_archive envAllFail cfgA emptyWorld identA tgtA).1
      = Outcome.err (DlError.DownloadFailed (mkDownloadFailedMsg identA tgtA
          (DlError.APIClient "boom"))) :=
  (C1_retry_bound envAllFail cfgA emptyWorld identA tgtA
      "/dl/artifacts/core-redis-3.0.1-20190101-x86_64-linux.hart" (fun _ => "boom")
      (by decide) (by decide) (fun _ => rfl)).2.1

/-- C7: given an empty input identifier list, `start` fails immediately
with the missing-input condition (the spec's `NoInputIdentifiers`, the
code's `MissingCLIInputError`), leaving the world untouched: no directory
is created and no depot call of any kind is made. -/
theorem C7_empty_idents (env : DepotEnv) (cfg : Cfg) (st : World)
    (h : cfg.idents = []) :
    start env cfg st
      = (Outcome.err (DlError.MissingCLIInputError "No package identifiers found"), st) := by
  simp [start, h]

/-- C7 witness: the empty-input theorem at a concrete configuration. -/
theorem C7_witness :
    start envAllFail ⟨[], tgtA, "stable", "/dl", false⟩ emptyWorld
      = (Outcome.err (DlError.MissingCLIInputError "No package identifiers found"),
         emptyWorld) :=
  C7_empty_idents envAllFail ⟨[], tgtA, "stable", "/dl", false⟩ emptyWorld rfl

/-- C9: for an identifier that is not fully qualified, the archive name
cannot be formed, so `downloaded_artifact_path` (which unwraps it) panics
rather than returning an error, and so does `get_downloaded_archive`,
which calls it. -/
theorem C9_unwrap_panics (cfg : Cfg) (i : PackageIdent) (t : PackageTarget)
    (h : i.fullyQualified = false) :
    downloaded_artifact_path cfg i t = none
    ∧ ∀ (env : DepotEnv) (st : World),
        (get_downloaded_archive env cfg st i t).1 = Outcome.panicked unwrapPanicMsg := by
  have hn : archive_name_with_target i t = none := by
    unfold PackageIdent.fullyQualified at h
    cases hv : i.version <;> cases hr : i.release <;>
      simp [archive_name_with_target, hv, hr]
    simp [hv, hr] at h
  refine ⟨by simp [downloaded_artifact_path, hn], fun env st => ?_⟩
  simp [get_downloaded_archive, downloaded_artifact_path, hn]

/-- C9 witness: the partial identifier `core/redis` makes the cache-path
computation, and with it the fetch phase, panic. -/
theorem C9_witness :
    downloaded_artifact_path cfgA identPart tgtA = none
    ∧ (get_downloaded_archive envOk cfgA emptyWorld identPart tgtA).1
        = Outcome.panicked unwrapPanicMsg :=
  ⟨(C9_unwrap_panics cfgA identPart tgtA rfl).1,
   (C9_unwrap_panics cfgA identPart tgtA rfl).2 envOk emptyWorld⟩

/-- C10: on a successful run the public entry point `start` returns unit:
the artifact count computed by `execute` is discarded (only logged), not
returned to the caller. -/
theorem C10_start_returns_unit (env : DepotEnv) (cfg : Cfg) (st st1 : World) (n : Nat)
    (hne : cfg.idents ≠ []) (hc : env.clientNewOk = true)
    (hex : execute env cfg st = (Outcome.ok n, st1)) :
    start env cfg st = (Outcome.ok (), st1) := by
  have hemp : cfg.idents.isEmpty = false := by
    cases hl : cfg.idents with
    | nil => exact absurd hl hne
    | cons a l => rfl
  simp [start, hemp, hc, hex]

/-- C10 witness: a concrete fully successful run returns unit from
`start` while `execute` counted one artifact. -/
theorem C10_witness :
    start envOk cfgA emptyWorld = (Outcome.ok (), (execute envOk cfgA emptyWorld).2) :=
  C10_start_returns_unit envOk cfgA emptyWorld ((execute envOk cfgA emptyWorld).2) 1
    (by decide) rfl (by decide)

/-! Expansion-set lemmas. -/

theorem mem_insertPair (l : List (PackageIdent × PackageTarget))
    (p q : PackageIdent × PackageTarget) :
    q ∈ insertPair l p ↔ q ∈ l ∨ q = p := by
  unfold insertPair
  by_cases hp : p ∈ l
  · simp only [hp, if_true]
    exact ⟨Or.inl, fun h => h.elim id (fun e => e ▸ hp)⟩
  · simp [hp]

theorem nodup_insertPair (l : List (PackageIdent × PackageTarget))
    (p : PackageIdent × PackageTarget) (h : l.Nodup) : (insertPair l p).Nodup := by
  unfold insertPair
  by_cases hp : p ∈ l
  · simpa [hp]
  · simp [hp, List.nodup_append, h]

theorem mem_foldl_insertPair (target : PackageTarget) (tds : List PackageIdent) :
    ∀ (acc : List (PackageIdent × PackageTarget)) (q : PackageIdent × PackageTarget),
      q ∈ tds.foldl (fun a d => insertPair a (d, target)) acc ↔
        q ∈ acc ∨ ∃ d ∈ tds, q = (d, target) := by
  induction tds with
  | nil => intro acc q; simp
  | cons d rest ih =>
    intro acc q
    simp only [List.foldl_cons, ih, mem_insertPair, List.mem_cons]
    constructor
    · rintro (⟨h | h⟩ | ⟨d', hd', h⟩)
      · exact Or.inl h
      · exact Or.inr ⟨d, Or.inl rfl, h⟩
      · exact Or.inr ⟨d', Or.inr hd', h⟩
    · rintro (h | ⟨d', hd' | hd', h⟩)
      · exact Or.inl (Or.inl h)
      · exact Or.inl (Or.inr (hd' ▸ h))
      · exact Or.inr ⟨d', hd', h⟩

theorem nodup_foldl_insertPair (target : PackageTarget) (tds : List PackageIdent) :
    ∀ (acc : List (PackageIdent × PackageTarget)), acc.Nodup →
      (tds.foldl (fun a d => insertPair a (d, target)) acc).Nodup := by
  induction tds with
  | nil => intro acc h; simpa
  | cons d rest ih => intro acc h; exact ih _ (nodup_insertPair _ _ h)

theorem mem_collectPackage (target : PackageTarget) (p : Package)
    (acc : List (PackageIdent × PackageTarget)) (q : PackageIdent × PackageTarget) :
    q ∈ collectPackage acc target p ↔
      q ∈ acc ∨ (q = (p.ident, target) ∨ ∃ d ∈ p.tdeps, q = (d, target)) := by
  simp only [collectPackage, mem_insertPair, mem_foldl_insertPair]
  constructor
  · rintro ((h | h) | h)
    · exact Or.inl h
    · exact Or.inr (Or.inr h)
    · exact Or.inr (Or.inl h)
  · rintro (h | h | h)
    · exact Or.inl (Or.inl h)
    · exact Or.inr h
    · exact Or.inl (Or.inr h)

theorem nodup_collectPackage (target : PackageTarget) (p : Package)
    (acc : List (PackageIdent × PackageTarget)) (h : acc.Nodup) :
    (collectPackage acc target p).Nodup :=
  nodup_insertPair _ _ (nodup_foldl_insertPair _ _ _ h)

theorem mem_collectFold (target : PackageTarget) (ps : List Package) :
    ∀ (acc : List (PackageIdent × PackageTarget)) (q : PackageIdent × PackageTarget),
      q ∈ ps.foldl (fun a p => collectPackage a target p) acc ↔
        q ∈ acc ∨ ∃ p ∈ ps, q = (p.ident, target) ∨ ∃ d ∈ p.tdeps, q = (d, target) := by
  induction ps with
  | nil => intro acc q; simp
  | cons p rest ih =>
    intro acc q
    simp only [List.foldl_cons, ih, mem_collectPackage, List.mem_cons]
    constructor
    · rintro (⟨h | h⟩ | ⟨p', hp', h⟩)
      · exact Or.inl h
      · exact Or.inr ⟨p, Or.inl rfl, h⟩
      · exact Or.inr ⟨p', Or.inr hp', h⟩
    · rintro (h | ⟨p', hp' | hp', h⟩)
      · exact Or.inl (Or.inl h)
      · exact Or.inl (Or.inr (hp' ▸ h))
      · exact Or.inr ⟨p', hp', h⟩

theorem nodup_collectFold (target : PackageTarget) (ps : List Package) :
    ∀ (acc : List (PackageIdent × PackageTarget)), acc.Nodup →
      (ps.foldl (fun a p => collectPackage a target p) acc).Nodup := by
  induction ps with
  | nil => intro acc h; simpa
  | cons p rest ih => intro acc h; exact ih _ (nodup_collectPackage _ _ _ h)

theorem nodup_collectAll (target : PackageTarget) (ps : List Package) :
    (collectAll target ps).Nodup :=
  nodup_collectFold target ps [] List.nodup_nil

theorem mem_collectAll (target : PackageTarget) (ps : List Package)
    (q : PackageIdent × PackageTarget) :
    q ∈ collectAll target ps ↔
      ∃ p ∈ ps, q = (p.ident, target) ∨ ∃ d ∈ p.tdeps, q = (d, target) := by
  simp [collectAll, mem_collectFold]

theorem mem_reachableSet (f : PackageIdent → Package) (idents : List PackageIdent)
    (target : PackageTarget) (q : PackageIdent × PackageTarget) :
    q ∈ reachableSet f idents target ↔
      ∃ i ∈ idents, q = ((f i).ident, target) ∨ ∃ d ∈ (f i).tdeps, q = (d, target) := by
  induction idents with
  | nil => simp [reachableSet]
  | cons i rest ih =>
    simp only [reachableSet, List.foldr_cons] at ih ⊢
    simp only [Finset.mem_union, Finset.mem_insert, List.mem_toFinset, List.mem_map,
      ih, List.mem_cons]
    constructor
    · rintro ((h | ⟨d, hd, h⟩) | ⟨i', hi', h⟩)
      · exact ⟨i, Or.inl rfl, Or.inl h⟩
      · exact ⟨i, Or.inl rfl, Or.inr ⟨d, hd, h.symm⟩⟩
      · exact ⟨i', Or.inr hi', h⟩
    · rintro ⟨i', hi' | hi', h⟩
      · subst hi'
        rcases h with h | ⟨d, hd, h⟩
        · exact Or.inl (Or.inl h)
        · exact Or.inl (Or.inr ⟨d, hd, h.symm⟩)
      · exact Or.inr ⟨i', hi', h⟩

theorem resolveAll_ok (env : DepotEnv) (cfg : Cfg) (f : PackageIdent → Package) :
    ∀ (l : List PackageIdent) (st : World),
      (∀ i ∈ l, env.resolve i = ResolveResponse.ok (f i)) →
      resolveAll env cfg st l
        = (Outcome.ok (l.map f), { st with resolveCalls := st.resolveCalls + l.length })
  | [], st, _ => by simp [resolveAll]
  | i :: rest, st, h => by
    have hi : env.resolve i = ResolveResponse.ok (f i) := h i (by simp)
    have ih := resolveAll_ok env cfg f rest { st with resolveCalls := st.resolveCalls + 1 }
      (fun j hj => h j (List.mem_cons_of_mem _ hj))
    have h3 : st.resolveCalls + 1 + rest.length = st.resolveCalls + (rest.length + 1) := by
      omega
    simp only [resolveAll, determine_latest_from_ident, hi, ih, List.length_cons,
      List.map_cons]
    rw [h3]

/-- C3: when every input identifier resolves (to `f i`), the ExpansionSet
built by `expand_sources` is exactly the union over all inputs of the
resolved identifier and its transitive dependencies, each paired with the
run's single target, duplicates counted once; its length equals the number
of distinct reachable (identifier, target) pairs. -/
theorem C3_expansion_set (env : DepotEnv) (cfg : Cfg) (st : World)
    (f : PackageIdent → Package)
    (h : ∀ i ∈ cfg.idents, env.resolve i = ResolveResponse.ok (f i)) :
    ∃ L, (expand_sources env cfg st).1 = Outcome.ok L
      ∧ L.toFinset = reachableSet f cfg.idents cfg.target
      ∧ L.Nodup
      ∧ L.length = (reachableSet f cfg.idents cfg.target).card := by
  have hra := resolveAll_ok env cfg f cfg.idents st h
  have hnd := nodup_collectAll cfg.target (cfg.idents.map f)
  have hset : (collectAll cfg.target (cfg.idents.map f)).toFinset
      = reachableSet f cfg.idents cfg.target := by
    ext q
    simp only [List.mem_toFinset, mem_collectAll, mem_reachableSet, List.mem_map]
    constructor
    · rintro ⟨p, ⟨i, hi, rfl⟩, h⟩
      exact ⟨i, hi, h⟩
    · rintro ⟨i, hi, h⟩
      exact ⟨f i, ⟨i, hi, rfl⟩, h⟩
  refine ⟨collectAll cfg.target (cfg.idents.map f), ?_, hset, hnd, ?_⟩
  · simp [expand_sources, hra]
  · rw [← hset, List.toFinset_card_of_nodup hnd]

/-- A run configuration whose inputs are `identA` and `identB`. -/
def cfgAB : Cfg := ⟨[identA, identB], tgtA, "stable", "/dl", false⟩

/-- A depot resolving `identB` to a package depending on `identA`. -/
def envExp : DepotEnv :=
  ⟨fun i => if i = identB then ResolveResponse.ok ⟨identB, [identA]⟩
            else ResolveResponse.ok ⟨i, []⟩,
   fun _ _ _ => FetchResponse.ok, fun _ _ _ => true,
   fun _ => some "core-20180119235556", fun _ => true, true⟩

/-- The resolution function of `envExp`. -/
def fExp : PackageIdent → Package :=
  fun i => if i = identB then ⟨identB, [identA]⟩ else ⟨i, []⟩

/-- C3 witness: two inputs with an overlapping dependency expand to the
deduplicated reachable set. -/
theorem C3_witness :
    ∃ L, (expand_sources envExp cfgAB emptyWorld).1 = Outcome.ok L
      ∧ L.toFinset = reachableSet fExp cfgAB.idents cfgAB.target
      ∧ L.Nodup
      ∧ L.length = (reachableSet fExp cfgAB.idents cfgAB.target).card :=
  C3_expansion_set envExp cfgAB emptyWorld fExp (by decide)

theorem resolveAll_notFound (env : DepotEnv) (cfg : Cfg) (ident : PackageIdent)
    (post : List PackageIdent)
    (hnf : env.resolve ident = ResolveResponse.notFound) :
    ∀ (pre : List PackageIdent) (st : World),
      (∀ j ∈ pre, ∃ p, env.resolve j = ResolveResponse.ok p) →
      resolveAll env cfg st (pre ++ ident :: post)
        = (Outcome.err (DlError.PackageNotFound
             (ident.str ++ " for " ++ cfg.target ++ " in channel " ++ cfg.channel)),
           { st with resolveCalls := st.resolveCalls + (pre.length + 1) })
  | [], st, _ => by
    simp [resolveAll, determine_latest_from_ident, hnf]
  | j :: rest, st, h => by
    obtain ⟨p, hj⟩ := h j (by simp)
    have ih := resolveAll_notFound env cfg ident post hnf rest
      { st with resolveCalls := st.resolveCalls + 1 }
      (fun k hk => h k (List.mem_cons_of_mem _ hk))
    have h3 : st.resolveCalls + 1 + (rest.length + 1)
        = st.resolveCalls + (rest.length + 1 + 1) := by omega
    simp only [List.cons_append, resolveAll, determine_latest_from_ident, hj,
      List.append_eq, ih, List.length_cons]
    rw [h3]

/-- C6: when the depot reports one of the inputs as not found (all inputs
before it resolving fine), the expansion aborts with a fatal
`PackageNotFound`: exactly one resolution call is spent on the failing
identifier (no retry), the identifiers after it are never resolved, and no
download or filesystem fallback of any kind happens. -/
theorem C6_notfound_fatal (env : DepotEnv) (cfg : Cfg) (st : World)
    (pre post : List PackageIdent) (ident : PackageIdent)
    (hsplit : cfg.idents = pre ++ ident :: post)
    (hpre : ∀ j ∈ pre, ∃ p, env.resolve j = ResolveResponse.ok p)
    (hnf : env.resolve ident = ResolveResponse.notFound) :
    (expand_sources env cfg st).1
        = Outcome.err (DlError.PackageNotFound
            (ident.str ++ " for " ++ cfg.target ++ " in channel " ++ cfg.channel))
    ∧ (expand_sources env cfg st).2.resolveCalls = st.resolveCalls + (pre.length + 1)
    ∧ (expand_sources env cfg st).2.fetchCalls = st.fetchCalls
    ∧ (expand_sources env cfg st).2.fs = st.fs := by
  have hra := resolveAll_notFound env cfg ident post hnf pre st hpre
  rw [expand_sources, hsplit, hra]
  simp

/-- A depot for which `identB` does not exist. -/
def envNF : DepotEnv :=
  ⟨fun i => if i = identA then ResolveResponse.ok ⟨identA, []⟩
            else ResolveResponse.notFound,
   fun _ _ _ => FetchResponse.ok, fun _ _ _ => true,
   fun _ => some "core-20180119235556", fun _ => true, true⟩

/-- C6 witness: with inputs `[identA, identB]` and `identB` unknown to the
depot, expansion aborts after resolving `identA` and trying `identB` once. -/
theorem C6_witness :
    (expand_sources envNF cfgAB emptyWorld).1
        = Outcome.err (DlError.PackageNotFound
            (identB.str ++ " for " ++ cfgAB.target ++ " in channel " ++ cfgAB.channel))
    ∧ (expand_sources envNF cfgAB emptyWorld).2.resolveCalls
        = emptyWorld.resolveCalls + (([identA] : List PackageIdent).length + 1)
    ∧ (expand_sources envNF cfgAB emptyWorld).2.fetchCalls = emptyWorld.fetchCalls
    ∧ (expand_sources envNF cfgAB emptyWorld).2.fs = emptyWorld.fs :=
  C6_notfound_fatal envNF cfgAB emptyWorld [identA] [] identB rfl
    (fun j hj => ⟨⟨identA, []⟩, by simp at hj; subst hj; decide⟩) (by decide)

/-! Unsupported-target behaviour (C2) and the verify flag (C5). -/

/-- A depot that reports the target unsupported (`NOT_IMPLEMENTED`) on
every artifact fetch. -/
def envSkip : DepotEnv :=
  ⟨fun i => ResolveResponse.ok ⟨i, []⟩, fun _ _ _ => FetchResponse.notImplemented,
   fun _ _ _ => true, fun _ => some "core-20180119235556", fun _ => true, true⟩

/-- The cache path of `identA` under `cfgA`. -/
def artPathA : String := "/dl/artifacts/core-redis-3.0.1-20190101-x86_64-linux.hart"

/-- C2: on an unsupported-target depot response `fetch_artifact` returns
success and writes no file, as the claim says; but the per-pair operation
then reads the signer from the never-written artifact file, fails, and the
download loop aborts (only one fetch call is ever made), so an error is
propagated for the pair and processing does not continue to the next
pair. -/
theorem C2_unsupported_target :
    (fetch_artifact envSkip cfgA emptyWorld identA tgtA).1 = Outcome.ok ()
    ∧ (fetch_artifact envSkip cfgA emptyWorld identA tgtA).2.fs = emptyWorld.fs
    ∧ (get_downloaded_archive envSkip cfgA emptyWorld identA tgtA).1
        = Outcome.err (DlError.ArtifactError ("No such file " ++ artPathA))
    ∧ (download_artifacts envSkip cfgA emptyWorld [(identA, tgtA), (identB, tgtA)]).1
        = Outcome.err (DlError.ArtifactError ("No such file " ++ artPathA))
    ∧ (download_artifacts envSkip cfgA emptyWorld
        [(identA, tgtA), (identB, tgtA)]).2.fetchCalls = 1 := by
  decide

theorem isFile_writeFile_self (fs : FS) (p : String) :
    (fs.writeFile p).isFile p = true := by
  simp [FS.writeFile, FS.isFile, FS.lookup, lookupNode]

/-- C5: (1) with the verify flag unset the outcome of
`fetch_keys_and_verify_artifact` does not depend on the verifier at all
(verification is skipped); (2) still, when the signer's key is absent from
the local key store, one key-fetch network call is made, and if it
succeeds the key is stored and the operation succeeds; (3) with the verify
flag set, verification is invoked and its failure is a fatal
`VerificationFailed` error. -/
theorem C5_verify_flag (env : DepotEnv) (cfg : Cfg) (st : World) (path : String)
    (signer : String)
    (hs : artifact_signer env st.fs path = Outcome.ok signer) :
    (cfg.verify = false → ∀ v,
        fetch_keys_and_verify_artifact { env with verifyOk := v } cfg st path
          = fetch_keys_and_verify_artifact env cfg st path)
    ∧ (cfg.verify = false → FS.isFile st.fs (keyFilePath cfg signer) = false →
        ∀ n r, parse_name_with_rev signer = some (n, r) →
        (fetch_keys_and_verify_artifact env cfg st path).2.keyFetchCalls
            = st.keyFetchCalls + 1
        ∧ (env.fetchKey n r st.keyFetchCalls = true →
            (fetch_keys_and_verify_artifact env cfg st path).1 = Outcome.ok ()
            ∧ FS.isFile (fetch_keys_and_verify_artifact env cfg st path).2.fs
                (path_for_keys cfg ++ "/" ++ n ++ "-" ++ r ++ ".pub") = true))
    ∧ (cfg.verify = true → FS.isFile st.fs (keyFilePath cfg signer) = true →
        env.verifyOk path = false →
        (fetch_keys_and_verify_artifact env cfg st path).1
          = Outcome.err (DlError.VerificationFailed
              ("Habitat artifact cannot be validated at " ++ path))) := by
  refine ⟨?_, ?_, ?_⟩
  · intro hv v
    simp [fetch_keys_and_verify_artifact, artifact_signer, fetch_origin_key,
      verifyStep, hv]
  · intro hv hk n r hparse
    cases hfk : env.fetchKey n r st.keyFetchCalls <;>
      simp [fetch_keys_and_verify_artifact, hs, hk, fetch_origin_key, hparse, hfk, hv,
        verifyStep, isFile_writeFile_self]
  · intro hv hk hvf
    simp [fetch_keys_and_verify_artifact, hs, hk, verifyStep, hv, hvf]

/-- A world whose filesystem holds the cached artifact of `identA` and
nothing else. -/
def stArt : World := ⟨⟨[(artPathA, NodeKind.file)]⟩, 0, 0, 0⟩

/-- A world holding the cached artifact of `identA` and the signer's
public key. -/
def stArtKey : World :=
  ⟨⟨[(artPathA, NodeKind.file), ("/dl/keys/core-20180119235556.pub", NodeKind.file)]⟩,
   0, 0, 0⟩

/-- The configuration `cfgA` with verification turned on. -/
def cfgV : Cfg := ⟨[identA], tgtA, "stable", "/dl", true⟩

/-- A depot whose signature verifier always rejects. -/
def envBadSig : DepotEnv :=
  ⟨fun i => ResolveResponse.ok ⟨i, []⟩, fun _ _ _ => FetchResponse.ok,
   fun _ _ _ => true, fun _ => some "core-20180119235556", fun _ => false, true⟩

/-- C5 witness: with verify off the key is still fetched when absent (one
key-fetch call) even though the verifier rejects everything; with verify
on the same verifier makes the operation fail fatally. -/
theorem C5_witness :
    (fetch_keys_and_verify_artifact envBadSig cfgA stArt artPathA).2.keyFetchCalls
        = stArt.keyFetchCalls + 1
    ∧ (fetch_keys_and_verify_artifact envBadSig cfgV stArtKey artPathA).1
        = Outcome.err (DlError.VerificationFailed
            ("Habitat artifact cannot be validated at " ++ artPathA)) :=
  ⟨((C5_verify_flag envBadSig cfgA stArt artPathA "core-20180119235556"
        (by decide)).2.1 rfl (by decide) "core" "20180119235556" (by decide)).1,
   (C5_verify_flag envBadSig cfgV stArtKey artPathA "core-20180119235556"
        (by decide)).2.2 rfl (by decide) rfl⟩

/-! Cache lemmas (C4): files are never removed, and a cached pair costs no
fetch call. -/

theorem isFile_writeFile_mono (fs : FS) (p q : String) (h : fs.isFile q = true) :
    (fs.writeFile p).isFile q = true := by
  by_cases hqp : q = p
  · subst hqp; exact isFile_writeFile_self fs q
  · simpa [FS.writeFile, FS.isFile, FS.lookup, lookupNode, hqp] using h

theorem fetch_artifact_mono (env : DepotEnv) (cfg : Cfg) (st : World)
    (i : PackageIdent) (t : PackageTarget) (q : String) (h : st.fs.isFile q = true) :
    (fetch_artifact env cfg st i t).2.fs.isFile q = true := by
  cases hr : env.fetchPackage i t st.fetchCalls with
  | ok =>
    cases hn : archive_name_with_target i t with
    | some n => simpa [fetch_artifact, hr, hn] using isFile_writeFile_mono _ _ _ h
    | none => simpa [fetch_artifact, hr, hn] using h
  | notImplemented => simpa [fetch_artifact, hr] using h
  | apiError m => simpa [fetch_artifact, hr] using h

theorem fetch_origin_key_mono (env : DepotEnv) (cfg : Cfg) (st : World)
    (s : String) (q : String) (h : st.fs.isFile q = true) :
    (fetch_origin_key env cfg st s).2.fs.isFile q = true := by
  cases hp : parse_name_with_rev s with
  | none => simpa [fetch_origin_key, hp] using h
  | some nr =>
    rcases nr with ⟨n, r⟩
    cases hfk : env.fetchKey n r st.keyFetchCalls with
    | false => simpa [fetch_origin_key, hp, hfk] using h
    | true => simpa [fetch_origin_key, hp, hfk] using isFile_writeFile_mono _ _ _ h

theorem fetch_origin_key_fetchCalls (env : DepotEnv) (cfg : Cfg) (st : World)
    (s : String) : (fetch_origin_key env cfg st s).2.fetchCalls = st.fetchCalls := by
  cases hp : parse_name_with_rev s with
  | none => simp [fetch_origin_key, hp]
  | some nr =>
    rcases nr with ⟨n, r⟩
    cases hfk : env.fetchKey n r st.keyFetchCalls <;> simp [fetch_origin_key, hp, hfk]

theorem verifyStep_world (env : DepotEnv) (cfg : Cfg) (st : World) (path : String) :
    (verifyStep env cfg st path).2 = st := by
  unfold verifyStep
  by_cases hv : cfg.verify = true
  · rw [if_pos hv]
    by_cases hvo : env.verifyOk path = true
    · rw [if_pos hvo]
    · rw [if_neg hvo]
  · rw [if_neg hv]

theorem fkva_mono (env : DepotEnv) (cfg : Cfg) (st : World) (path : String)
    (q : String) (h : st.fs.isFile q = true) :
    (fetch_keys_and_verify_artifact env cfg st path).2.fs.isFile q = true := by
  unfold fetch_keys_and_verify_artifact
  cases hs : artifact_signer env st.fs path with
  | err e => exact h
  | panicked m => exact h
  | ok s =>
    dsimp only
    by_cases hk : st.fs.isFile (keyFilePath cfg s) = true
    · rw [if_pos hk, verifyStep_world]; exact h
    · rw [if_neg hk]
      have hm := fetch_origin_key_mono env cfg st s q h
      rcases hfo : fetch_origin_key env cfg st s with ⟨o, st1⟩
      rw [hfo] at hm
      cases o with
      | ok _ => rw [verifyStep_world]; exact hm
      | err e => exact hm
      | panicked m => exact hm

theorem fkva_fetchCalls (env : DepotEnv) (cfg : Cfg) (st : World) (path : String) :
    (fetch_keys_and_verify_artifact env cfg st path).2.fetchCalls = st.fetchCalls := by
  unfold fetch_keys_and_verify_artifact
  cases hs : artifact_signer env st.fs path with
  | err e => rfl
  | panicked m => rfl
  | ok s =>
    dsimp only
    by_cases hk : st.fs.isFile (keyFilePath cfg s) = true
    · rw [if_pos hk, verifyStep_world]
    · rw [if_neg hk]
      have hc := fetch_origin_key_fetchCalls env cfg st s
      rcases hfo : fetch_origin_key env cfg st s with ⟨o, st1⟩
      rw [hfo] at hc
      cases o with
      | ok _ => rw [verifyStep_world]; exact hc
      | err e => exact hc
      | panicked m => exact hc

theorem retryGo_mono (f : World → Outcome Unit × World)
    (hf : ∀ (w : World) (q : String), w.fs.isFile q = true →
            (f w).2.fs.isFile q = true) :
    ∀ (delays : List Nat) (t d : Nat) (st : World) (q : String),
      st.fs.isFile q = true → (retryGo f delays t d st).2.fs.isFile q = true
  | [], t, d, st, q, h => by
    have h1 := hf st q h
    rcases hfs : f st with ⟨o, st1⟩
    rw [hfs] at h1
    rw [retryGo, hfs]
    cases o <;> exact h1
  | d0 :: rest, t, d, st, q, h => by
    have h1 := hf st q h
    rcases hfs : f st with ⟨o, st1⟩
    rw [hfs] at h1
    rw [retryGo, hfs]
    cases o with
    | ok _ => exact h1
    | panicked m => exact h1
    | err e => exact retryGo_mono f hf rest (t + 1) (d + d0) st1 q h1

theorem gda_mono (env : DepotEnv) (cfg : Cfg) (st : World) (i : PackageIdent)
    (t : PackageTarget) (q : String) (h : st.fs.isFile q = true) :
    (get_downloaded_archive env cfg st i t).2.fs.isFile q = true := by
  unfold get_downloaded_archive
  cases hp : downloaded_artifact_path cfg i t with
  | none => simpa using h
  | some path =>
    by_cases hc : st.fs.isFile path = true
    · simp only [hc, if_true]
      have hm := fkva_mono env cfg st path q h
      rcases hfk : fetch_keys_and_verify_artifact env cfg st path with ⟨o, st2⟩
      rw [hfk] at hm
      cases o <;> exact hm
    · have hc' : st.fs.isFile path = false := by simpa using hc
      simp only [hc', Bool.false_eq_true, if_false, retryRun]
      have hm := retryGo_mono (fun w => fetch_artifact env cfg w i t)
        (fun w q' h' => fetch_artifact_mono env cfg w i t q' h')
        retryDelays 1 0 st q h
      rcases hrr : retryGo (fun w => fetch_artifact env cfg w i t) retryDelays 1 0 st
        with ⟨rr, st1⟩
      rw [hrr] at hm
      cases rr with
      | ok =>
        dsimp only
        have hm2 := fkva_mono env cfg st1 path q hm
        rcases hfk : fetch_keys_and_verify_artifact env cfg st1 path with ⟨o, st2⟩
        rw [hfk] at hm2
        cases o <;> exact hm2
      | failed a b e => exact hm
      | panicked m => exact hm

theorem gda_cached_fetchCalls (env : DepotEnv) (cfg : Cfg) (st : World)
    (i : PackageIdent) (t : PackageTarget) (path : String)
    (hp : downloaded_artifact_path cfg i t = some path)
    (hc : st.fs.isFile path = true) :
    (get_downloaded_archive env cfg st i t).2.fetchCalls = st.fetchCalls := by
  simp only [get_downloaded_archive, hp, hc, if_true]
  have hf := fkva_fetchCalls env cfg st path
  rcases hfk : fetch_keys_and_verify_artifact env cfg st path with ⟨o, st2⟩
  rw [hfk] at hf
  cases o <;> exact hf

/-- C4: a cached (identifier, target) pair costs no fetch call.  First
conjunct: when the deterministic cache path already holds a file,
`get_downloaded_archive` makes no `fetch_package` network call for the
pair.  Second conjunct: over a whole download set all of whose pairs are
already cached (as on a second run against the same download root), the
fetch phase makes zero artifact fetches. -/
theorem C4_cached_skip (env : DepotEnv) (cfg : Cfg) :
    (∀ (st : World) (i : PackageIdent) (t : PackageTarget) (path : String),
       downloaded_artifact_path cfg i t = some path →
       st.fs.isFile path = true →
       (get_downloaded_archive env cfg st i t).2.fetchCalls = st.fetchCalls)
    ∧ (∀ (st : World) (pairs : List (PackageIdent × PackageTarget)),
       (∀ p ∈ pairs, ∃ path, downloaded_artifact_path cfg p.1 p.2 = some path
           ∧ st.fs.isFile path = true) →
       (download_artifacts env cfg st pairs).2.fetchCalls = st.fetchCalls) := by
  refine ⟨fun st i t path hp hc => gda_cached_fetchCalls env cfg st i t path hp hc, ?_⟩
  intro st pairs
  induction pairs generalizing st with
  | nil => intro _; rfl
  | cons p rest ih =>
    intro h
    obtain ⟨pi, pt⟩ := p
    obtain ⟨path, hp, hc⟩ := h (pi, pt) (by simp)
    rcases hg : get_downloaded_archive env cfg st pi pt with ⟨o, st1⟩
    have hfc : st1.fetchCalls = st.fetchCalls := by
      have := gda_cached_fetchCalls env cfg st pi pt path hp hc
      rw [hg] at this; exact this
    have hmono : ∀ q, st.fs.isFile q = true → st1.fs.isFile q = true := by
      intro q hq
      have := gda_mono env cfg st pi pt q hq
      rw [hg] at this; exact this
    have hrest : ∀ p' ∈ rest, ∃ path', downloaded_artifact_path cfg p'.1 p'.2 = some path'
        ∧ st1.fs.isFile path' = true := by
      intro p' hp'
      obtain ⟨path', hdp', hc'⟩ := h p' (List.mem_cons_of_mem _ hp')
      exact ⟨path', hdp', hmono path' hc'⟩
    cases o with
    | ok a =>
      rcases hr : download_artifacts env cfg st1 rest with ⟨o2, st2⟩
      have h2 : st2.fetchCalls = st1.fetchCalls := by
        have := ih st1 hrest
        rw [hr] at this; exact this
      cases o2 <;> simp [download_artifacts, hg, hr] <;> omega
    | err e => simp [download_artifacts, hg]; omega
    | panicked m => simp [download_artifacts, hg]; omega

/-- C4 witness: with the artifact of `identA` already cached, neither the
single-pair fetch nor the loop over the one-element set makes any
`fetch_package` call. -/
theorem C4_witness :
    (get_downloaded_archive envOk cfgA stArt identA tgtA).2.fetchCalls
        = stArt.fetchCalls
    ∧ (download_artifacts envOk cfgA stArt [(identA, tgtA)]).2.fetchCalls
        = stArt.fetchCalls :=
  ⟨(C4_cached_skip envOk cfgA).1 stArt identA tgtA artPathA (by decide) (by decide),
   (C4_cached_skip envOk cfgA).2 stArt [(identA, tgtA)]
     (fun p hp => ⟨artPathA, by simp at hp; subst hp; exact ⟨by decide, by decide⟩⟩)⟩

/-! Directory-preparation lemmas (C8). -/

theorem createDirs_preserve (k : NodeKind) :
    ∀ (paths : List String) (fs : FS) (p : String), fs.lookup p = some k →
      (createDirs fs paths).1.lookup p = some k
  | [], fs, p, h => h
  | a :: rest, fs, p, h => by
    cases ha : fs.lookup a with
    | none =>
      have hpa : p ≠ a := fun e => by rw [e, ha] at h; cases h
      have h1 : (fs.mkdir a).lookup p = some k := by
        simpa [FS.mkdir, FS.lookup, lookupNode, hpa] using h
      simpa [createDirs, create_dir_all, ha]
        using createDirs_preserve k rest (fs.mkdir a) p h1
    | some nk =>
      cases nk with
      | file => simpa [createDirs, create_dir_all, ha] using h
      | dir ro =>
        simpa [createDirs, create_dir_all, ha]
          using createDirs_preserve k rest fs p h

theorem createDirs_ok_dirs :
    ∀ (paths : List String) (fs : FS), (createDirs fs paths).2 = none →
      ∀ p ∈ paths, ∃ ro, (createDirs fs paths).1.lookup p = some (NodeKind.dir ro)
  | [], _, _, p, hp => absurd hp (List.not_mem_nil p)
  | a :: rest, fs, hok, p, hp => by
    cases ha : fs.lookup a with
    | none =>
      have heq : createDirs fs (a :: rest) = createDirs (fs.mkdir a) rest := by
        simp [createDirs, create_dir_all, ha]
      rw [heq] at hok ⊢
      rcases List.mem_cons.mp hp with rfl | hp'
      · refine ⟨false, createDirs_preserve _ rest (fs.mkdir p) p ?_⟩
        simp [FS.mkdir, FS.lookup, lookupNode]
      · exact createDirs_ok_dirs rest (fs.mkdir a) hok p hp'
    | some nk =>
      cases nk with
      | file =>
        have hbad : (createDirs fs (a :: rest)).2 = some a := by
          simp [createDirs, create_dir_all, ha]
        rw [hbad] at hok
        cases hok
      | dir ro =>
        have heq : createDirs fs (a :: rest) = createDirs fs rest := by
          simp [createDirs, create_dir_all, ha]
        rw [heq] at hok ⊢
        rcases List.mem_cons.mp hp with rfl | hp'
        · exact ⟨ro, createDirs_preserve _ rest fs p ha⟩
        · exact createDirs_ok_dirs rest fs hok p hp'

theorem checkDirs_perm :
    ∀ (paths : List String) (fs : FS),
      (∀ p ∈ paths, ∃ ro, fs.lookup p = some (NodeKind.dir ro)) →
      ∀ p ∈ paths, fs.lookup p = some (NodeKind.dir true) →
      ∃ m, checkDirs fs paths = some (DlError.PermissionFailed m)
  | [], _, _, p, hp, _ => absurd hp (List.not_mem_nil p)
  | a :: rest, fs, hall, p, hp, hro => by
    obtain ⟨ro, ha⟩ := hall a (by simp)
    cases ro with
    | true =>
      exact ⟨a ++ " isn't writeable, needed for download", by simp [checkDirs, ha]⟩
    | false =>
      have heq : checkDirs fs (a :: rest) = checkDirs fs rest := by
        simp [checkDirs, ha]
      rcases List.mem_cons.mp hp with rfl | hp'
      · rw [ha] at hro
        simp at hro
      · rw [heq]
        exact checkDirs_perm rest fs (fun p' h' => hall p' (List.mem_cons_of_mem _ h'))
          p hp' hro

theorem checkDirs_ok :
    ∀ (paths : List String) (fs : FS), checkDirs fs paths = none →
      ∀ p ∈ paths, fs.lookup p = some (NodeKind.dir false)
  | [], _, _, p, hp => absurd hp (List.not_mem_nil p)
  | a :: rest, fs, hok, p, hp => by
    cases ha : fs.lookup a with
    | none => simp [checkDirs, ha] at hok
    | some nk =>
      cases nk with
      | file => simp [checkDirs, ha] at hok
      | dir ro =>
        cases ro with
        | true => simp [checkDirs, ha] at hok
        | false =>
          have hok' : checkDirs fs rest = none := by
            simpa [checkDirs, ha] using hok
          rcases List.mem_cons.mp hp with rfl | hp'
          · exact ha
          · exact checkDirs_ok rest fs hok' p hp'

/-- C8: the Directory Preparer (1) on success leaves all three of the
download root and its `keys` and `artifacts` subdirectories existing as
writable directories; (2) fails with a `PermissionFailed` condition
whenever any of the three paths pre-exists as a non-directory or as a
read-only directory; (3) on failure `execute` stops with that very error;
and (4) the preparation itself performs no resolution, fetch or key-fetch
network call, so the check completes before any network call is
attempted. -/
theorem C8_directory_preparation (env : DepotEnv) (cfg : Cfg) (st : World) :
    ((verify_and_prepare_download_directory cfg st).1 = Outcome.ok () →
       ∀ p ∈ downloadPaths cfg,
         FS.lookup (verify_and_prepare_download_directory cfg st).2.fs p
           = some (NodeKind.dir false))
    ∧ ((∃ p ∈ downloadPaths cfg,
          st.fs.lookup p = some NodeKind.file
          ∨ st.fs.lookup p = some (NodeKind.dir true)) →
       ∃ m, (verify_and_prepare_download_directory cfg st).1
           = Outcome.err (DlError.PermissionFailed m))
    ∧ (∀ e, (verify_and_prepare_download_directory cfg st).1 = Outcome.err e →
       execute env cfg st
         = (Outcome.err e, (verify_and_prepare_download_directory cfg st).2))
    ∧ (verify_and_prepare_download_directory cfg st).2.resolveCalls = st.resolveCalls
    ∧ (verify_and_prepare_download_directory cfg st).2.fetchCalls = st.fetchCalls
    ∧ (verify_and_prepare_download_directory cfg st).2.keyFetchCalls
        = st.keyFetchCalls := by
  rcases hcd : createDirs st.fs (downloadPaths cfg) with ⟨fs1, oq⟩
  have hfst : (createDirs st.fs (downloadPaths cfg)).1 = fs1 := by rw [hcd]
  have hsnd : (createDirs st.fs (downloadPaths cfg)).2 = oq := by rw [hcd]
  cases oq with
  | some badp =>
    have hv : verify_and_prepare_download_directory cfg st
        = (Outcome.err (DlError.PermissionFailed
             ("Can't create directory " ++ badp ++ " needed for download")),
           { st with fs := fs1 }) := by
      rw [verify_and_prepare_download_directory, hcd]
    refine ⟨?_, ?_, ?_, ?_, ?_, ?_⟩
    · intro hok
      rw [hv] at hok
      cases hok
    · intro _
      exact ⟨"Can't create directory " ++ badp ++ " needed for download", by rw [hv]⟩
    · intro e he
      rw [hv] at he
      rw [execute, hv]
      simp only [Prod.fst] at he
      cases he
      rfl
    · rw [hv]
    · rw [hv]
    · rw [hv]
  | none =>
    cases hck : checkDirs fs1 (downloadPaths cfg) with
    | some e0 =>
      have hv : verify_and_prepare_download_directory cfg st
          = (Outcome.err e0, { st with fs := fs1 }) := by
        rw [verify_and_prepare_download_directory, hcd]
        dsimp only
        rw [hck]
      refine ⟨?_, ?_, ?_, ?_, ?_, ?_⟩
      · intro hok
        rw [hv] at hok
        cases hok
      · intro ⟨p, hp, hbad⟩
        have halld : ∀ p' ∈ downloadPaths cfg, ∃ ro, fs1.lookup p' = some (NodeKind.dir ro) := by
          intro p' hp'
          have := createDirs_ok_dirs (downloadPaths cfg) st.fs (by rw [hcd]) p' hp'
          rwa [hcd] at this
        cases hbad with
        | inl hfile =>
          have hpres := createDirs_preserve NodeKind.file (downloadPaths cfg) st.fs p hfile
          rw [hcd] at hpres
          obtain ⟨ro, hdir⟩ := halld p hp
          rw [hpres] at hdir
          cases hdir
        | inr hro =>
          have hpres := createDirs_preserve (NodeKind.dir true) (downloadPaths cfg)
            st.fs p hro
          rw [hcd] at hpres
          obtain ⟨m, hm⟩ := checkDirs_perm (downloadPaths cfg) fs1 halld p hp hpres
          rw [hm] at hck
          cases hck
          exact ⟨m, by rw [hv]⟩
      · intro e he
        rw [hv] at he
        rw [execute, hv]
        simp only [Prod.fst] at he
        cases he
        rfl
      · rw [hv]
      · rw [hv]
      · rw [hv]
    | none =>
      have hv : verify_and_prepare_download_directory cfg st
          = (Outcome.ok (), { st with fs := fs1 }) := by
        rw [verify_and_prepare_download_directory, hcd]
        dsimp only
        rw [hck]
      refine ⟨?_, ?_, ?_, ?_, ?_, ?_⟩
      · intro _ p hp
        rw [hv]
        exact checkDirs_ok (downloadPaths cfg) fs1 hck p hp
      · intro ⟨p, hp, hbad⟩
        have halld : ∀ p' ∈ downloadPaths cfg, ∃ ro, fs1.lookup p' = some (NodeKind.dir ro) := by
          intro p' hp'
          have := createDirs_ok_dirs (downloadPaths cfg) st.fs (by rw [hcd]) p' hp'
          rwa [hcd] at this
        cases hbad with
        | inl hfile =>
          have hpres := createDirs_preserve NodeKind.file (downloadPaths cfg) st.fs p hfile
          rw [hcd] at hpres
          obtain ⟨ro, hdir⟩ := halld p hp
          rw [hpres] at hdir
          cases hdir
        | inr hro =>
          have hpres := createDirs_preserve (NodeKind.dir true) (downloadPaths cfg)
            st.fs p hro
          rw [hcd] at hpres
          have hall := checkDirs_ok (downloadPaths cfg) fs1 hck p hp
          rw [hpres] at hall
          simp at hall
      · intro e he
        rw [hv] at he
        cases he
      · rw [hv]
      · rw [hv]
      · rw [hv]

/-- A world whose `keys` directory pre-exists read-only. -/
def stRO : World := ⟨⟨[("/dl/keys", NodeKind.dir true)]⟩, 0, 0, 0⟩

/-- C8 witness: a read-only `keys` subdirectory makes the run fail with
`PermissionFailed`, with no network call of any kind ever made. -/
theorem C8_witness :
    (∃ m, (verify_and_prepare_download_directory cfgA stRO).1
        = Outcome.err (DlError.PermissionFailed m))
    ∧ (verify_and_prepare_download_directory cfgA stRO).2.resolveCalls
        = stRO.resolveCalls
    ∧ (verify_and_prepare_download_directory cfgA stRO).2.fetchCalls
        = stRO.fetchCalls :=
  ⟨(C8_directory_preparation envOk cfgA stRO).2.1
      ⟨"/dl/keys", by decide, Or.inr (by decide)⟩,
   (C8_directory_preparation envOk cfgA stRO).2.2.2.1,
   (C8_directory_preparation envOk cfgA stRO).2.2.2.2.1⟩

end Habitat
